import Mathlib

/-!
Shallow embedding of the BusTub storage-engine sources:

* `src/project0_submissiom/src/buffer/buffer_pool_manager.cpp`
  (`BufferPoolManager::FetchPageImpl`, `UnpinPageImpl`, `FlushPageImpl`,
  `NewPageImpl`, `DeletePageImpl`),
* `src/project0_submissiom/src/buffer/lru_replacer.cpp` and
  `src/src/buffer/lru_replacer.cpp` (`LRUReplacer::Victim`, `Pin`, `Unpin`),
* `src/src/storage/index/b_plus_tree.cpp` (`BPlusTree` operations),
* `src/src/storage/index/index_iterator.cpp` (`IndexIterator::operator++`).

Modelling conventions:

* `page_id_t` and `frame_id_t` are C++ `int32_t`; both are modelled as `Int`
  (the values that occur never overflow 32 bits, except where the source
  itself converts to `size_t`, which is modelled with an explicit `% 2 ^ 64`).
* A page's 4-KiB byte buffer is modelled by a single abstract image token
  `data : Int`; `ResetMemory` writes the token `0`, `DiskManager::ReadPage`
  copies the disk token into the frame and `WritePage` copies it back.
* `std::unordered_map` values (the page table and the replacer's `hash_map`)
  are modelled as association lists with unique keys; `erase` removes the
  (unique) binding of a key.  The replacer's victim scan takes the entry with
  the strictly smallest timestamp, so the unordered iteration order of the
  C++ map does not affect the result.
* The BPM's `latch_` is modelled as a lock-depth counter: `lock()` adds one,
  `unlock()` subtracts one.  A public operation that returns with the counter
  back at its entry value released the mutex correctly.
* Uninitialized C++ locals that are read before being written (the
  out-parameter handed to `LRUReplacer::Victim` by `FetchPageImpl` and
  `NewPageImpl`) are modelled as explicit extra inputs of the embedding.
-/

namespace bustub

/-- The sentinel page id `INVALID_PAGE_ID = -1`. -/
def INVALID_PAGE_ID : Int := -1

/-- Lookup in an association list with `Int` keys
(`std::unordered_map::find`). -/
def lookupKey : List (Int × Int) → Int → Option Int
  | [], _ => none
  | e :: rest, k => if e.1 = k then some e.2 else lookupKey rest k

/-- Erase the (unique) binding of a key from an association list
(`std::unordered_map::erase`). -/
def eraseKey : List (Int × Int) → Int → List (Int × Int)
  | [], _ => []
  | e :: rest, k => if e.1 = k then rest else e :: eraseKey rest k

/-- Insert that does nothing when the key is already bound
(`std::unordered_map::insert`). -/
def insertKey (l : List (Int × Int)) (k v : Int) : List (Int × Int) :=
  if (lookupKey l k).isSome then l else l ++ [(k, v)]

/-- State of `LRUReplacer` (`lru_replacer.cpp`): the `hash_map` from frame id
to timestamp, the monotonic `timestamp` counter, and the capacity `size`
(`num_pages`, read by the submission version of `Victim`). -/
structure LRUReplacer where
  size : Nat
  hashMap : List (Int × Int)
  timestamp : Int
deriving DecidableEq

/-- The scan of `LRUReplacer::Victim` over `hash_map`: fold keeping the entry
whose timestamp is strictly smaller than the current best. -/
def scanMin (best : Int × Int) : List (Int × Int) → Int × Int
  | [] => best
  | e :: rest => scanMin (if e.2 < best.2 then e else best) rest

/-- `LRUReplacer::Pin` (both versions): erase the frame from `hash_map`. -/
def LRUReplacer.pin (r : LRUReplacer) (frameId : Int) : LRUReplacer :=
  { r with hashMap := eraseKey r.hashMap frameId }

/-- `LRUReplacer::Victim` of `src/src/buffer/lru_replacer.cpp` (lines 21-41):
return `false` on an empty map, otherwise pick the entry with the smallest
timestamp, erase it (via `Pin`) and return its frame id. -/
def LRUReplacer.victim (r : LRUReplacer) : Option Int × LRUReplacer :=
  match r.hashMap with
  | [] => (none, r)
  | e :: rest =>
    let m := scanMin e rest
    (some m.1, r.pin m.1)

/-- `LRUReplacer::Victim` of
`src/project0_submissiom/src/buffer/lru_replacer.cpp` (lines 21-45).  This
version first executes `if (*frame_id > size) return false;` on the incoming
value of the out-parameter (`frameIdIn`), an `int32_t` that is compared
against the `size_t` member `size` after the usual conversion to an unsigned
64-bit value.  It also forgets to release the lock on the empty branch (locks
are not part of the replacer model). -/
def LRUReplacer.victimP0 (r : LRUReplacer) (frameIdIn : Int) : Bool × Int × LRUReplacer :=
  if (frameIdIn % (2 ^ 64)).toNat > r.size then (false, frameIdIn, r)
  else
    match r.hashMap with
    | [] => (false, frameIdIn, r)
    | e :: rest =>
      let m := scanMin e rest
      (true, m.1, r.pin m.1)

/-- `LRUReplacer::Unpin` of the project0 submission (lines 53-61): if the
frame is already present, return without touching it; otherwise insert it
with the next timestamp. -/
def LRUReplacer.unpinP0 (r : LRUReplacer) (frameId : Int) : LRUReplacer :=
  if (lookupKey r.hashMap frameId).isSome then r
  else { r with hashMap := r.hashMap ++ [(frameId, r.timestamp)], timestamp := r.timestamp + 1 }

/-- One slot of the buffer pool's frame array (class `Page`): the resident
page id, the pin count, the dirty flag and the (abstract) buffer image. -/
structure Page where
  pageId : Int
  pinCount : Int
  isDirty : Bool
  data : Int
deriving DecidableEq

/-- The Disk Manager as seen by the BPM: a page-id-indexed store of buffer
images, the `AllocatePage` counter, and the list of `DeallocatePage` calls. -/
structure DiskManager where
  store : Int → Int
  nextPageId : Int
  deallocated : List Int

/-- `DiskManager::WritePage`. -/
def DiskManager.writePage (d : DiskManager) (pid img : Int) : DiskManager :=
  { d with store := fun q => if q = pid then img else d.store q }

/-- `DiskManager::AllocatePage`: return a fresh monotonically increasing id. -/
def DiskManager.allocatePage (d : DiskManager) : Int × DiskManager :=
  (d.nextPageId, { d with nextPageId := d.nextPageId + 1 })

/-- `DiskManager::DeallocatePage` (recorded, otherwise a no-op). -/
def DiskManager.deallocatePage (d : DiskManager) (pid : Int) : DiskManager :=
  { d with deallocated := d.deallocated ++ [pid] }

/-- State of `BufferPoolManager` (project0 submission): the frame array
`pages_`, the page table (page id to frame id), the free list, the replacer,
the disk manager, and the lock depth of `latch_`. -/
structure BufferPoolManager where
  poolSize : Nat
  pages : Int → Page
  pageTable : List (Int × Int)
  freeList : List Int
  replacer : LRUReplacer
  disk : DiskManager
  latch : Nat

/-- Pointwise update of the frame array. -/
def updFrame (fs : Int → Page) (fid : Int) (p : Page) : Int → Page :=
  fun q => if q = fid then p else fs q

/-- Lines 76-82 of `FetchPageImpl` (shared with the free-list branch): insert
the new mapping, set `pin=1`, `dirty=false`, `page_id`, read the page image
from disk, unlock and return the frame. -/
def BufferPoolManager.installPage (st : BufferPoolManager) (fid pid : Int) :
    Option Int × BufferPoolManager :=
  let st1 := { st with pageTable := insertKey st.pageTable pid fid }
  let f := st1.pages fid
  let f1 := { f with pinCount := 1, isDirty := false, pageId := pid, data := st1.disk.store pid }
  (some fid, { st1 with pages := updFrame st1.pages fid f1, latch := st1.latch - 1 })

/-- `BufferPoolManager::FetchPageImpl` (buffer_pool_manager.cpp lines 37-83).
`frameIdIn` models the value of the uninitialized local `fetch_frame_id`
as passed to `LRUReplacer::Victim` in the eviction branch.  Note that the
resident branch only increments the pin count (it does not call
`replacer_->Pin`), and the eviction branch erases the page table with the
frame id `fetch_frame_id` as key (line 71), not the victim's page id. -/
def BufferPoolManager.fetchPageImpl (st : BufferPoolManager) (pid frameIdIn : Int) :
    Option Int × BufferPoolManager :=
  let st0 := { st with latch := st.latch + 1 }
  match lookupKey st0.pageTable pid with
  | some fid =>
    let f := st0.pages fid
    let st1 := { st0 with pages := updFrame st0.pages fid { f with pinCount := f.pinCount + 1 } }
    (some fid, { st1 with latch := st1.latch - 1 })
  | none =>
    match st0.freeList with
    | fid :: rest => BufferPoolManager.installPage { st0 with freeList := rest } fid pid
    | [] =>
      if st0.replacer.hashMap.length > 0 then
        match st0.replacer.victimP0 frameIdIn with
        | (false, _, r1) =>
          let st1 := { st0 with replacer := r1 }
          (none, { st1 with latch := st1.latch - 1 })
        | (true, fid, r1) =>
          let st1 := { st0 with replacer := r1 }
          let f := st1.pages fid
          let st2 := if f.isDirty then { st1 with disk := st1.disk.writePage f.pageId f.data } else st1
          let st3 := { st2 with pageTable := eraseKey st2.pageTable fid }
          BufferPoolManager.installPage st3 fid pid
      else (none, { st0 with latch := st0.latch - 1 })

/-- `BufferPoolManager::UnpinPageImpl` (lines 85-104).  The dirty flag is
overwritten by the supplied argument (line 93, plain assignment), the pin
count is decremented, and when it reaches zero the frame is handed to the
replacer. -/
def BufferPoolManager.unpinPageImpl (st : BufferPoolManager) (pid : Int) (isDirty : Bool) :
    Bool × BufferPoolManager :=
  let st0 := { st with latch := st.latch + 1 }
  match lookupKey st0.pageTable pid with
  | none => (false, { st0 with latch := st0.latch - 1 })
  | some fid =>
    let f := { st0.pages fid with isDirty := isDirty }
    let st1 := { st0 with pages := updFrame st0.pages fid f }
    if f.pinCount ≤ (0 : Int) then (false, { st1 with latch := st1.latch - 1 })
    else
      let f1 := { f with pinCount := f.pinCount - 1 }
      let st2 := { st1 with pages := updFrame st1.pages fid f1 }
      let st3 := if f1.pinCount = (0 : Int) then { st2 with replacer := st2.replacer.unpinP0 fid } else st2
      (true, { st3 with latch := st3.latch - 1 })

/-- `BufferPoolManager::FlushPageImpl` (lines 106-125): write back if dirty
and clear the flag, then erase the page-table entry, push the frame onto the
free list and `Pin` it out of the replacer. -/
def BufferPoolManager.flushPageImpl (st : BufferPoolManager) (pid : Int) :
    Bool × BufferPoolManager :=
  let st0 := { st with latch := st.latch + 1 }
  match lookupKey st0.pageTable pid with
  | none => (false, { st0 with latch := st0.latch - 1 })
  | some fid =>
    let f := st0.pages fid
    let st1 :=
      if f.isDirty then
        { st0 with pages := updFrame st0.pages fid { f with isDirty := false },
                   disk := st0.disk.writePage f.pageId f.data }
      else st0
    let st2 := { st1 with pageTable := eraseKey st1.pageTable pid,
                          freeList := st1.freeList ++ [fid],
                          replacer := st1.replacer.pin fid }
    (true, { st2 with latch := st2.latch - 1 })

/-- Lines 158-166 of `NewPageImpl` (shared by both acquisition branches):
allocate a fresh page id, `ResetMemory` (zero image), set the page id and
`pin=1` (the dirty flag is left untouched), insert the mapping, unlock. -/
def BufferPoolManager.allocInstall (st : BufferPoolManager) (fid : Int) :
    Option Int × BufferPoolManager :=
  let (newPid, d1) := st.disk.allocatePage
  let st1 := { st with disk := d1 }
  let f := st1.pages fid
  let f1 := { f with data := 0, pageId := newPid, pinCount := 1 }
  let st2 := { st1 with pages := updFrame st1.pages fid f1,
                        pageTable := insertKey st1.pageTable newPid fid }
  (some newPid, { st2 with latch := st2.latch - 1 })

/-- `BufferPoolManager::NewPageImpl` (lines 127-167).  `frameIdIn` models the
uninitialized local `frame_id` passed to `Victim`.  The eviction branch
writes back a dirty victim and erases its page-table entry (by page id,
correctly, line 152), but the victim's dirty flag is never cleared. -/
def BufferPoolManager.newPageImpl (st : BufferPoolManager) (frameIdIn : Int) :
    Option Int × BufferPoolManager :=
  let st0 := { st with latch := st.latch + 1 }
  match st0.freeList with
  | fid :: rest => BufferPoolManager.allocInstall { st0 with freeList := rest } fid
  | [] =>
    if st0.replacer.hashMap.length > 0 then
      match st0.replacer.victimP0 frameIdIn with
      | (false, _, r1) =>
        let st1 := { st0 with replacer := r1 }
        (none, { st1 with latch := st1.latch - 1 })
      | (true, fid, r1) =>
        let st1 := { st0 with replacer := r1 }
        let f := st1.pages fid
        let st2 := if f.isDirty then { st1 with disk := st1.disk.writePage f.pageId f.data } else st1
        let st3 := { st2 with pageTable := eraseKey st2.pageTable f.pageId }
        BufferPoolManager.allocInstall st3 fid
    else (none, { st0 with latch := st0.latch - 1 })

/-- `BufferPoolManager::DeletePageImpl` (lines 169-194).  On a non-resident
page it deallocates and returns `true`.  On a resident page with positive pin
count it executes `latch_.lock()` a second time (line 184) and returns
`false` with the mutex still held (lock depth 2).  Otherwise it erases the
mapping, pins the frame out of the replacer, resets the buffer, returns the
frame to the free list and deallocates. -/
def BufferPoolManager.deletePageImpl (st : BufferPoolManager) (pid : Int) :
    Bool × BufferPoolManager :=
  let st0 := { st with latch := st.latch + 1 }
  match lookupKey st0.pageTable pid with
  | none =>
    let st1 := { st0 with disk := st0.disk.deallocatePage pid }
    (true, { st1 with latch := st1.latch - 1 })
  | some fid =>
    let f := st0.pages fid
    if f.pinCount > (0 : Int) then (false, { st0 with latch := st0.latch + 1 })
    else
      let st1 := { st0 with pageTable := eraseKey st0.pageTable pid,
                            replacer := st0.replacer.pin fid,
                            pages := updFrame st0.pages fid { f with data := 0 },
                            freeList := st0.freeList ++ [fid] }
      let st2 := { st1 with disk := st1.disk.deallocatePage pid }
      (true, { st2 with latch := st2.latch - 1 })

/-!
B+ tree layer (`src/src/storage/index/b_plus_tree.cpp` and
`src/src/storage/index/index_iterator.cpp`).

Keys and values are modelled as `Int`: the key/comparator contract only
demands a strict total order, and `GenericComparator` over the integer test
keys is exactly integer comparison.

The node-level page classes (`b_plus_tree_leaf_page.cpp`,
`b_plus_tree_internal_page.cpp`, `b_plus_tree_page.cpp`) and the buffer pool
manager the tree is linked against (`src/src/buffer/buffer_pool_manager.cpp`)
are not among the provided sources — only their callers are — so they are
modelled from the spec (sections 4.A-4.D), as noted on each definition.
-/

/-- A leaf page (`BPlusTreeLeafPage`): header fields plus the sorted
(key, value) slots. -/
structure LeafPage where
  pageId : Int
  parentPageId : Int
  nextPageId : Int
  maxSize : Nat
  items : List (Int × Int)
deriving DecidableEq

/-- An internal page (`BPlusTreeInternalPage`): header fields plus the
(key, child) slot array; the key of slot 0 is unused. -/
structure InternalPage where
  pageId : Int
  parentPageId : Int
  maxSize : Nat
  slots : List (Int × Int)
deriving DecidableEq

/-- A B+ tree node: the two page kinds distinguished by the header's
`page_type`. -/
inductive Node
  | leaf (l : LeafPage)
  | internal (n : InternalPage)
deriving DecidableEq

/-- `BPlusTreePage::GetPageId`. -/
def Node.pageId : Node → Int
  | Node.leaf l => l.pageId
  | Node.internal n => n.pageId

/-- `BPlusTreePage::GetParentPageId`. -/
def Node.parentPageId : Node → Int
  | Node.leaf l => l.parentPageId
  | Node.internal n => n.parentPageId

/-- `BPlusTreePage::GetSize`. -/
def Node.size : Node → Nat
  | Node.leaf l => l.items.length
  | Node.internal n => n.slots.length

/-- Modelled from the spec (section 3): `min_size = ceil(max_size/2)` for
internal nodes. -/
def InternalPage.minSize (n : InternalPage) : Nat := (n.maxSize + 1) / 2

/-- Modelled from the spec (section 3): `min_size = floor(max_size/2)` for
leaves. -/
def LeafPage.minSize (l : LeafPage) : Nat := l.maxSize / 2

/-- `BPlusTreePage::GetMinSize`, dispatching on the node kind. -/
def Node.minSize : Node → Nat
  | Node.leaf l => l.minSize
  | Node.internal n => n.minSize

/-- `BPlusTreePage::SetParentPageId` on either node kind. -/
def Node.withParent (nd : Node) (pid : Int) : Node :=
  match nd with
  | Node.leaf l => Node.leaf { l with parentPageId := pid }
  | Node.internal n => Node.internal { n with parentPageId := pid }

/-- Modelled from the spec (4.D): helper for `key_index` — the smallest index
whose key is `≥ key`. -/
def keyIndexGo (k : Int) : List (Int × Int) → Nat
  | [] => 0
  | (k1, _) :: rest => if k ≤ k1 then 0 else keyIndexGo k rest + 1

/-- Modelled from the spec (4.D): `LeafPage::KeyIndex`, the smallest index
`i` with `key_i ≥ key` (the insertion index; equals `size` when every key is
smaller). -/
def LeafPage.keyIndex (l : LeafPage) (k : Int) : Nat := keyIndexGo k l.items

/-- `LeafPage::KeyAt` (out-of-range reads return a junk slot, as an
out-of-bounds C++ array read would; it is only meaningful in range). -/
def LeafPage.keyAt (l : LeafPage) (i : Nat) : Int := (l.items.getD i (0, 0)).1

/-- Modelled from the spec (4.D): `LeafPage::Lookup` — binary search for an
exact key match. -/
def LeafPage.lookup (l : LeafPage) (k : Int) : Option Int :=
  match lookupKey l.items k with
  | some v => some v
  | none => none

/-- Modelled from the spec (4.D): helper for `LeafPage::Insert` — insert the
pair in front of the first key that is `≥ k` (insertion at `key_index`). -/
def insertKVGo (k v : Int) : List (Int × Int) → List (Int × Int)
  | [] => [(k, v)]
  | (k1, v1) :: rest =>
    if k ≤ k1 then (k, v) :: (k1, v1) :: rest else (k1, v1) :: insertKVGo k v rest

/-- Modelled from the spec (4.D): `LeafPage::Insert` (the caller has already
ruled out a duplicate). -/
def LeafPage.insertKV (l : LeafPage) (k v : Int) : LeafPage :=
  { l with items := insertKVGo k v l.items }

/-- Modelled from the spec (4.D): `LeafPage::RemoveAt` shifts the slots after
`i` left by one. -/
def LeafPage.removeAt (l : LeafPage) (i : Nat) : LeafPage :=
  { l with items := l.items.eraseIdx i }

/-- Modelled from the spec (4.D): `LeafPage::MoveHalfTo` — the donor keeps
the lower half of its slots, the fresh leaf receives the upper half (sibling
links are spliced by the caller, `InsertIntoLeaf`). -/
def leafMoveHalfTo (l newL : LeafPage) : LeafPage × LeafPage :=
  let keep := l.items.length / 2
  ({ l with items := l.items.take keep }, { newL with items := l.items.drop keep })

/-- Modelled from the spec (4.D): `LeafPage::MoveAllTo` — append every slot
to the left sibling, which inherits the donor's sibling link. -/
def leafMoveAllTo (nd nb : LeafPage) : LeafPage × LeafPage :=
  ({ nd with items := [] },
   { nb with items := nb.items ++ nd.items, nextPageId := nd.nextPageId })

/-- Modelled from the spec (4.D): `LeafPage::MoveFirstToEndOf` — move the
donor's first slot to the end of the recipient. -/
def leafMoveFirstToEndOf (nb n : LeafPage) : LeafPage × LeafPage :=
  match nb.items with
  | [] => (nb, n)
  | x :: rest => ({ nb with items := rest }, { n with items := n.items ++ [x] })

/-- Modelled from the spec (4.D): `LeafPage::MoveLastToFrontOf` — move the
donor's last slot to the front of the recipient. -/
def leafMoveLastToFrontOf (nb n : LeafPage) : LeafPage × LeafPage :=
  match nb.items.getLast? with
  | none => (nb, n)
  | some x => ({ nb with items := nb.items.dropLast }, { n with items := x :: n.items })

/-- `InternalPage::ValueAt`. -/
def InternalPage.valueAt (n : InternalPage) (i : Nat) : Int :=
  (n.slots.getD i (0, INVALID_PAGE_ID)).2

/-- `InternalPage::KeyAt`. -/
def InternalPage.keyAt (n : InternalPage) (i : Nat) : Int := (n.slots.getD i (0, 0)).1

/-- `InternalPage::SetKeyAt` (the child of slot `i` is kept). -/
def InternalPage.setKeyAt (n : InternalPage) (i : Nat) (k : Int) : InternalPage :=
  { n with slots := n.slots.set i (k, n.valueAt i) }

/-- Modelled from the spec (4.D): helper for `value_index` — linear search
for the child pointer, returning the slot count when absent. -/
def valueIndexGo (pid : Int) : List (Int × Int) → Nat
  | [] => 0
  | (_, c) :: rest => if c = pid then 0 else valueIndexGo pid rest + 1

/-- Modelled from the spec (4.D): `InternalPage::ValueIndex`. -/
def InternalPage.valueIndex (n : InternalPage) (pid : Int) : Nat :=
  valueIndexGo pid n.slots

/-- Modelled from the spec (4.D): helper for internal `lookup` — walk the
separator slots keeping the child of the rightmost separator `≤ key`. -/
def lookupChildGo (k : Int) (c : Int) : List (Int × Int) → Int
  | [] => c
  | (k1, c1) :: rest => if k1 ≤ k then lookupChildGo k c1 rest else c

/-- Modelled from the spec (4.D): `InternalPage::Lookup` — the child whose
subtree can contain `key` (slot 0 when `key` is below every separator). -/
def InternalPage.lookupChild (n : InternalPage) (k : Int) : Int :=
  match n.slots with
  | [] => INVALID_PAGE_ID
  | s0 :: rest => lookupChildGo k s0.2 rest

/-- List insertion at an index (clamped to the end), used by
`insert_node_after`. -/
def insertAtIdx (l : List (Int × Int)) : Nat → (Int × Int) → List (Int × Int) :=
  fun i x =>
    match i, l with
    | 0, l => x :: l
    | Nat.succ _, [] => [x]
    | Nat.succ j, y :: rest => y :: insertAtIdx rest j x

/-- Modelled from the spec (4.D): `InternalPage::InsertNodeAfter` — insert
the (key, new child) pair immediately after the slot holding `old child`. -/
def InternalPage.insertNodeAfter (n : InternalPage) (oldPid key newPid : Int) : InternalPage :=
  { n with slots := insertAtIdx n.slots (n.valueIndex oldPid + 1) (key, newPid) }

/-- Modelled from the spec (4.D): `InternalPage::PopulateNewRoot`. -/
def InternalPage.populateNewRoot (n : InternalPage) (left key right : Int) : InternalPage :=
  { n with slots := [(0, left), (key, right)] }

/-- Modelled from the spec (4.D): `InternalPage::Remove` — erase slot `i`. -/
def InternalPage.removeAt (n : InternalPage) (i : Nat) : InternalPage :=
  { n with slots := n.slots.eraseIdx i }

/-- One buffer-pool call made by the tree, recorded in order. -/
inductive BCall
  | fetch (pid : Int)
  | unpin (pid : Int) (dirty : Bool)
  | newPage (pid : Int)
  | deletePage (pid : Int)
deriving DecidableEq

/-- Pointwise bump of a pin-count map. -/
def bump (p : Int → Int) (pid d : Int) : Int → Int :=
  fun q => if q = pid then p q + d else p q

/-- Replace the (unique) binding of a page id in the node store, or append
it when absent. -/
def updNodeList : List (Int × Node) → Int → Node → List (Int × Node)
  | [], pid, nd => [(pid, nd)]
  | e :: rest, pid, nd => if e.1 = pid then (pid, nd) :: rest else e :: updNodeList rest pid nd

/-- Lookup a page id in the node store. -/
def lookupNode : List (Int × Node) → Int → Option Node
  | [], _ => none
  | e :: rest, pid => if e.1 = pid then some e.2 else lookupNode rest pid

/-- Erase a page id from the node store. -/
def eraseNode : List (Int × Node) → Int → List (Int × Node)
  | [], _ => []
  | e :: rest, pid => if e.1 = pid then rest else e :: eraseNode rest pid

/-- Modelled from the spec (4.C, 4.G): the state the tree operations act on —
the node image of every allocated page, the per-page pin counts maintained by
the buffer pool manager, the disk manager's allocation counter, the
header-page record of the root id, the transaction's deleted-page set, and
the ordered trace of buffer-pool calls.  The tree's own
`buffer_pool_manager.cpp` is not among the provided sources, so the BPM is
modelled here by its contract: fetch pins and returns the resident node,
unpin releases one pin, new-page returns a fresh pinned page, delete-page
frees an unpinned page.  In-place writes through a pinned page pointer are
`setNode` updates; frame dirty flags have no observable effect at this level
beyond the dirty bit passed to unpin, which the trace records. -/
structure TState where
  nodes : List (Int × Node)
  pins : Int → Int
  nextPageId : Int
  headerRoot : Int
  deletedSet : List Int
  trace : List BCall

/-- Modelled from the spec (4.C): `BufferPoolManager::FetchPage` as the tree
observes it — pin the page and return its node (no pin when the page id is
unknown; the C++ callers would fault on the null handle). -/
def TState.fetch (st : TState) (pid : Int) : Option Node × TState :=
  match lookupNode st.nodes pid with
  | none => (none, st)
  | some nd =>
    (some nd, { st with pins := bump st.pins pid 1, trace := st.trace ++ [BCall.fetch pid] })

/-- Modelled from the spec (4.C): `BufferPoolManager::UnpinPage` — release
one pin, recording the dirty bit. -/
def TState.unpin (st : TState) (pid : Int) (dirty : Bool) : TState :=
  { st with pins := bump st.pins pid (-1), trace := st.trace ++ [BCall.unpin pid dirty] }

/-- Write through a pinned page pointer: replace the stored node image. -/
def TState.setNode (st : TState) (pid : Int) (nd : Node) : TState :=
  { st with nodes := updNodeList st.nodes pid nd }

/-- Modelled from the spec (4.C): `BufferPoolManager::NewPage` — allocate a
fresh page id, pinned once (allocation never fails in the model; the C++
callers throw on failure). -/
def TState.newPage (st : TState) : Int × TState :=
  (st.nextPageId,
   { st with nextPageId := st.nextPageId + 1,
             pins := bump st.pins st.nextPageId 1,
             trace := st.trace ++ [BCall.newPage st.nextPageId] })

/-- Modelled from the spec (4.C): `BufferPoolManager::DeletePage` — fails on
a pinned page, otherwise frees the node. -/
def TState.deletePage (st : TState) (pid : Int) : Bool × TState :=
  if st.pins pid > 0 then (false, { st with trace := st.trace ++ [BCall.deletePage pid] })
  else (true, { st with nodes := eraseNode st.nodes pid,
                        trace := st.trace ++ [BCall.deletePage pid] })

/-- The `BPlusTree` object's own fields: `root_page_id_`, `leaf_max_size_`
and `internal_max_size_`. -/
structure BPlusTree where
  rootPageId : Int
  leafMaxSize : Nat
  internalMaxSize : Nat
deriving DecidableEq

/-- Modelled from the spec (4.G): `BPlusTree::UpdateRootPageId`
(b_plus_tree.cpp lines 548-558) — fetch the header page, insert or update the
`(index_name, root_page_id)` record, unpin it dirty.  `HeaderPage` is not
among the provided sources; the record is modelled by the `headerRoot` field
and the header-page pin round trip by its trace entries (page id 0). -/
def BPlusTree.updateRootPageId (t : BPlusTree) (st : TState) (_insertRecord : Int) : TState :=
  { st with headerRoot := t.rootPageId,
            trace := st.trace ++ [BCall.fetch 0, BCall.unpin 0 true] }

/-- The loop of `BPlusTree::FindLeafPage` (lines 520-535): fetch the current
page; stop on a leaf; on an internal node pick the child (`ValueAt(0)` when
`leftMost`, else `Lookup(key)`), unpin the current page clean and descend.
Recursion is fuel-bounded; the C++ loop terminates because a well-formed tree
is finite. -/
def findLeafLoop (k : Int) (lm : Bool) : Nat → TState → Int → Option (Int × LeafPage) × TState
  | 0, st, _ => (none, st)
  | Nat.succ fuel, st, pid =>
    match st.fetch pid with
    | (none, st1) => (none, st1)
    | (some (Node.leaf l), st1) => (some (pid, l), st1)
    | (some (Node.internal n), st1) =>
      findLeafLoop k lm fuel (st1.unpin pid false)
        (if lm then n.valueAt 0 else n.lookupChild k)

/-- `BPlusTree::FindLeafPage` (lines 511-537): `nullptr` on an empty tree,
otherwise the pinned leaf reached from the root. -/
def BPlusTree.findLeafPage (t : BPlusTree) (st : TState) (k : Int) (lm : Bool) (fuel : Nat) :
    Option (Int × LeafPage) × TState :=
  if t.rootPageId = INVALID_PAGE_ID then (none, st)
  else findLeafLoop k lm fuel st t.rootPageId

/-- `BPlusTree::StartNewTree` (lines 88-100): new page, set and persist the
root id, initialize the leaf, insert the pair, unpin the root dirty. -/
def BPlusTree.startNewTree (t : BPlusTree) (st : TState) (k v : Int) : BPlusTree × TState :=
  let (pid, st1) := st.newPage
  let t1 := { t with rootPageId := pid }
  let st2 := t1.updateRootPageId st1 1
  let leaf : LeafPage :=
    { pageId := pid, parentPageId := INVALID_PAGE_ID, nextPageId := INVALID_PAGE_ID,
      maxSize := t.leafMaxSize, items := [] }
  let st3 := st2.setNode pid (Node.leaf (leaf.insertKV k v))
  (t1, st3.unpin pid true)

/-- Fetch every moved child, set its parent pointer to `pid` and unpin it
dirty — the reparenting loop inside the internal page's move operations. -/
def reparentChildren (st : TState) (cs : List Int) (pid : Int) : TState :=
  match cs with
  | [] => st
  | c :: rest =>
    let st1 :=
      match st.fetch c with
      | (none, st1) => st1
      | (some nd, st1) => (st1.setNode c (nd.withParent pid)).unpin c true
    reparentChildren st1 rest pid

/-- Modelled from the spec (4.D): `InternalPage::MoveHalfTo` — the donor
keeps the lower half of its slots, the fresh node receives the upper half
(its slot-0 key is the separator the caller promotes), and every moved child
is reparented. -/
def internalMoveHalfTo (n newN : InternalPage) (st : TState) :
    (InternalPage × InternalPage) × TState :=
  let keep := (n.slots.length + 1) / 2
  let moved := n.slots.drop keep
  (({ n with slots := n.slots.take keep }, { newN with slots := moved }),
   reparentChildren st (moved.map (fun s => s.2)) newN.pageId)

/-- Modelled from the spec (4.D): `InternalPage::MoveAllTo` — append the
separator pulled down from the parent with the donor's first child, then the
remaining slots, to the left sibling; reparent every moved child. -/
def internalMoveAllTo (nd nb : InternalPage) (middleKey : Int) (st : TState) :
    (InternalPage × InternalPage) × TState :=
  match nd.slots with
  | [] => ((nd, nb), st)
  | s0 :: rest =>
    let moved := (middleKey, s0.2) :: rest
    (({ nd with slots := [] }, { nb with slots := nb.slots ++ moved }),
     reparentChildren st (moved.map (fun s => s.2)) nb.pageId)

/-- Modelled from the spec (4.D): `InternalPage::MoveFirstToEndOf` — the
donor's first child moves to the end of the recipient under the pulled-down
separator; the moved child is reparented. -/
def internalMoveFirstToEndOf (nb n : InternalPage) (middleKey : Int) (st : TState) :
    (InternalPage × InternalPage) × TState :=
  match nb.slots with
  | [] => ((nb, n), st)
  | s0 :: rest =>
    (({ nb with slots := rest }, { n with slots := n.slots ++ [(middleKey, s0.2)] }),
     reparentChildren st [s0.2] n.pageId)

/-- Modelled from the spec (4.D): `InternalPage::MoveLastToFrontOf` — the
donor's last child becomes the recipient's new slot 0, the recipient's old
slot-0 child is re-keyed under the pulled-down separator; the moved child is
reparented. -/
def internalMoveLastToFrontOf (nb n : InternalPage) (middleKey : Int) (st : TState) :
    (InternalPage × InternalPage) × TState :=
  match nb.slots.getLast? with
  | none => ((nb, n), st)
  | some x =>
    let n1 :=
      match n.slots with
      | [] => { n with slots := [(0, x.2)] }
      | s0 :: rest => { n with slots := (0, x.2) :: (middleKey, s0.2) :: rest }
    (({ nb with slots := nb.slots.dropLast }, n1), reparentChildren st [x.2] n1.pageId)

/-- `BPlusTree::InsertIntoParent` (lines 172-201), fuel-bounded on the
recursion up the tree.  Root case: new internal root via `PopulateNewRoot`,
reparent both children, persist the root id, unpin the new root dirty.
Otherwise: fetch the parent, `InsertNodeAfter`; on overflow split the parent
(`Split` = new page + `Init`, lines 145-160, followed by `MoveHalfTo`) and
recurse; finally unpin (new sibling, then parent) dirty. -/
def insertIntoParent : Nat → BPlusTree → TState → Node → Int → Node → BPlusTree × TState
  | 0 => fun t st _ _ _ => (t, st)
  | Nat.succ fuel => fun t st oldNd key newNd =>
    if oldNd.parentPageId = INVALID_PAGE_ID then
      let (newPid, st1) := st.newPage
      let newRoot : InternalPage :=
        { pageId := newPid, parentPageId := INVALID_PAGE_ID,
          maxSize := t.internalMaxSize, slots := [] }
      let newRoot1 := newRoot.populateNewRoot oldNd.pageId key newNd.pageId
      let st2 := st1.setNode newPid (Node.internal newRoot1)
      let st3 := st2.setNode oldNd.pageId (oldNd.withParent newPid)
      let st4 := st3.setNode newNd.pageId (newNd.withParent newPid)
      let t1 := { t with rootPageId := newPid }
      let st5 := t1.updateRootPageId st4 0
      (t1, st5.unpin newPid true)
    else
      match st.fetch oldNd.parentPageId with
      | (none, st1) => (t, st1)
      | (some (Node.leaf _), st1) => (t, st1)
      | (some (Node.internal parent), st1) =>
        let parent1 := parent.insertNodeAfter oldNd.pageId key newNd.pageId
        let st2 := st1.setNode parent1.pageId (Node.internal parent1)
        if parent1.slots.length ≥ parent1.maxSize then
          let (newPid, st3) := st2.newPage
          let newInt : InternalPage :=
            { pageId := newPid, parentPageId := parent1.parentPageId,
              maxSize := t.internalMaxSize, slots := [] }
          let ((parent2, newInt1), st4) := internalMoveHalfTo parent1 newInt st3
          let st5 := (st4.setNode parent2.pageId (Node.internal parent2)).setNode newPid
            (Node.internal newInt1)
          let (t1, st6) :=
            insertIntoParent fuel t st5 (Node.internal parent2) (newInt1.keyAt 0)
              (Node.internal newInt1)
          let st7 := st6.unpin newPid true
          (t1, st7.unpin parent2.pageId true)
        else (t, st2.unpin parent1.pageId true)

/-- `BPlusTree::InsertIntoLeaf` (lines 111-134).  Find the leaf; when
`KeyIndex` lands on an equal key, unpin the leaf clean and return `false`
(duplicate).  Otherwise insert, split on overflow (new leaf via `Split`,
`MoveHalfTo`, sibling-chain splice, `InsertIntoParent`, unpin the new leaf
dirty), and unpin the leaf dirty. -/
def BPlusTree.insertIntoLeaf (t : BPlusTree) (st : TState) (k v : Int) (fuel : Nat) :
    Bool × BPlusTree × TState :=
  match t.findLeafPage st k false fuel with
  | (none, st1) => (false, t, st1)
  | (some (pid, leaf), st1) =>
    if leaf.keyIndex k < leaf.items.length ∧ leaf.keyAt (leaf.keyIndex k) = k then
      (false, t, st1.unpin pid false)
    else
      let leaf1 := leaf.insertKV k v
      let st2 := st1.setNode pid (Node.leaf leaf1)
      if leaf1.items.length ≥ leaf1.maxSize then
        let (newPid, st3) := st2.newPage
        let newLeaf : LeafPage :=
          { pageId := newPid, parentPageId := leaf1.parentPageId,
            nextPageId := INVALID_PAGE_ID, maxSize := t.leafMaxSize, items := [] }
        let (leaf2, newLeaf1) := leafMoveHalfTo leaf1 newLeaf
        let newLeaf2 := { newLeaf1 with nextPageId := leaf2.nextPageId }
        let leaf3 := { leaf2 with nextPageId := newPid }
        let st4 := (st3.setNode pid (Node.leaf leaf3)).setNode newPid (Node.leaf newLeaf2)
        let (t1, st5) :=
          insertIntoParent fuel t st4 (Node.leaf leaf3) (newLeaf2.keyAt 0) (Node.leaf newLeaf2)
        let st6 := st5.unpin newPid true
        (true, t1, st6.unpin pid true)
      else (true, t, st2.unpin pid true)

/-- `BPlusTree::Insert` (lines 73-80): start a new tree when empty, else
insert into the proper leaf. -/
def BPlusTree.insert (t : BPlusTree) (st : TState) (k v : Int) (fuel : Nat) :
    Bool × BPlusTree × TState :=
  if t.rootPageId = INVALID_PAGE_ID then
    let (t1, st1) := t.startNewTree st k v
    (true, t1, st1)
  else t.insertIntoLeaf st k v fuel

/-- `BPlusTree::AdjustRoot` (lines 436-464).  Size above one: no change.
Leaf root of size one: keep it.  Empty leaf root: the tree becomes empty.
Internal root of size one: its only child (via `RemoveAndReturnOnlyChild`)
becomes the root, its parent pointer is cleared and it is unpinned dirty.
In the last two cases the new root id is persisted and `true` asks the caller
to delete the old root. -/
def adjustRoot (t : BPlusTree) (st : TState) (nd : Node) : Bool × BPlusTree × TState :=
  if nd.size > 1 then (false, t, st)
  else
    match nd with
    | Node.leaf l =>
      if l.items.length = 1 then (false, t, st)
      else
        let t1 := { t with rootPageId := INVALID_PAGE_ID }
        (true, t1, t1.updateRootPageId st 0)
    | Node.internal n =>
      let newRootId := n.valueAt 0
      let st1 := st.setNode n.pageId (Node.internal { n with slots := [] })
      let st2 :=
        match st1.fetch newRootId with
        | (none, s) => s
        | (some child, s) =>
          (s.setNode newRootId (child.withParent INVALID_PAGE_ID)).unpin newRootId true
      let t1 := { t with rootPageId := newRootId }
      (true, t1, t1.updateRootPageId st2 0)

/-- `BPlusTree::Redistribute` (lines 372-424).  Fetch the parent; move one
entry between the siblings (`index = 0`: the neighbor is the right sibling
and donates its first entry; `index = 1`: the neighbor is the left sibling
and donates its last entry); refresh the parent separator (for internal
nodes, rotate the separator through the parent); unpin the parent dirty. -/
def redistribute (st : TState) (neighborNd nd : Node) (index : Nat) : TState :=
  match st.fetch nd.parentPageId with
  | (none, st1) => st1
  | (some (Node.leaf _), st1) => st1
  | (some (Node.internal parent), st1) =>
    match neighborNd, nd with
    | Node.leaf nb, Node.leaf l =>
      if index = 0 then
        let (nb1, l1) := leafMoveFirstToEndOf nb l
        let st2 := (st1.setNode nb1.pageId (Node.leaf nb1)).setNode l1.pageId (Node.leaf l1)
        let parent1 := parent.setKeyAt (parent.valueIndex nb1.pageId) (nb1.keyAt 0)
        let st3 := st2.setNode parent1.pageId (Node.internal parent1)
        st3.unpin parent1.pageId true
      else
        let (nb1, l1) := leafMoveLastToFrontOf nb l
        let st2 := (st1.setNode nb1.pageId (Node.leaf nb1)).setNode l1.pageId (Node.leaf l1)
        let parent1 := parent.setKeyAt (parent.valueIndex l1.pageId) (l1.keyAt 0)
        let st3 := st2.setNode parent1.pageId (Node.internal parent1)
        st3.unpin parent1.pageId true
    | Node.internal nb, Node.internal n =>
      if index = 0 then
        let ni := parent.valueIndex nb.pageId
        let middleKey := parent.keyAt ni
        let nextMiddleKey := nb.keyAt 1
        let ((nb1, n1), st2) := internalMoveFirstToEndOf nb n middleKey st1
        let st3 := (st2.setNode nb1.pageId (Node.internal nb1)).setNode n1.pageId
          (Node.internal n1)
        let parent1 := parent.setKeyAt ni nextMiddleKey
        let st4 := st3.setNode parent1.pageId (Node.internal parent1)
        st4.unpin parent1.pageId true
      else
        let ni := parent.valueIndex n.pageId
        let middleKey := parent.keyAt ni
        let nextMiddleKey := nb.keyAt (nb.slots.length - 1)
        let ((nb1, n1), st2) := internalMoveLastToFrontOf nb n middleKey st1
        let st3 := (st2.setNode nb1.pageId (Node.internal nb1)).setNode n1.pageId
          (Node.internal n1)
        let parent1 := parent.setKeyAt ni nextMiddleKey
        let st4 := st3.setNode parent1.pageId (Node.internal parent1)
        st4.unpin parent1.pageId true
    | _, _ => st1.unpin nd.parentPageId true

/-- `BPlusTree::Coalesce` (lines 333-361), with the recursion into
`CoalesceOrRedistribute` supplied as the continuation `cor` (the two
functions are mutually recursive in the source; the caller passes the
fuel-smaller instance).  Move all of `nd` into `neighborNd` (for internals,
pulling the parent's separator at `index` down as the middle key), remove
slot `index` from the parent, and recurse on an underflowing parent. -/
def coalesce (cor : BPlusTree → TState → Node → Bool × BPlusTree × TState)
    (t : BPlusTree) (st : TState) (neighborNd nd : Node) (parent : InternalPage)
    (index : Nat) : Bool × BPlusTree × TState :=
  let st1 :=
    match nd, neighborNd with
    | Node.leaf l, Node.leaf nb =>
      let (l1, nb1) := leafMoveAllTo l nb
      (st.setNode l1.pageId (Node.leaf l1)).setNode nb1.pageId (Node.leaf nb1)
    | Node.internal n, Node.internal nb =>
      let ((n1, nb1), s) := internalMoveAllTo n nb (parent.keyAt index) st
      (s.setNode n1.pageId (Node.internal n1)).setNode nb1.pageId (Node.internal nb1)
    | _, _ => st
  let parent1 := parent.removeAt index
  let st2 := st1.setNode parent1.pageId (Node.internal parent1)
  if parent1.slots.length < parent1.minSize then cor t st2 (Node.internal parent1)
  else (false, t, st2)

/-- `BPlusTree::CoalesceOrRedistribute` (lines 249-319), fuel-bounded.
Root: `AdjustRoot`.  Otherwise fetch the parent and locate the node; try to
redistribute from a left sibling richer than `min_size`, then from a right
sibling; else merge — into the left sibling when one exists (returning
`true`: the caller deletes the node), else merge the right sibling into the
node (the right sibling and possibly the parent go into the transaction's
deleted-page set, returning `false`).  The intermediate `Sum` values model
the source's early returns out of its sibling-examination blocks. -/
def coalesceOrRedistribute : Nat → BPlusTree → TState → Node → Bool × BPlusTree × TState
  | 0 => fun t st _ => (false, t, st)
  | Nat.succ fuel => fun t st nd =>
    if nd.parentPageId = INVALID_PAGE_ID then adjustRoot t st nd
    else
      match st.fetch nd.parentPageId with
      | (none, st1) => (false, t, st1)
      | (some (Node.leaf _), st1) => (false, t, st1)
      | (some (Node.internal parent), st1) =>
        let parentPid := nd.parentPageId
        let nodeIndex := parent.valueIndex nd.pageId
        match
          (if 0 < nodeIndex then
            match st1.fetch (parent.valueAt (nodeIndex - 1)) with
            | (none, s) => Sum.inl (false, t, s)
            | (some prevNd, s) =>
              if prevNd.size > prevNd.minSize then
                let s1 := redistribute s prevNd nd 1
                Sum.inl (false, t, ((s1.unpin parentPid true).unpin prevNd.pageId true))
              else Sum.inr (s, some prevNd)
          else Sum.inr (st1, (none : Option Node)))
        with
        | Sum.inl r => r
        | Sum.inr (st2, prevInfo) =>
          match
            (if nodeIndex ≠ parent.slots.length - 1 then
              match st2.fetch (parent.valueAt (nodeIndex + 1)) with
              | (none, s) => Sum.inl (false, t, s)
              | (some nextNd, s) =>
                if nextNd.size > nextNd.minSize then
                  let s1 := redistribute s nextNd nd 0
                  let s2 := s1.unpin parentPid true
                  let s3 :=
                    match prevInfo with
                    | some p => s2.unpin p.pageId false
                    | none => s2
                  Sum.inl (false, t, s3.unpin nextNd.pageId true)
                else Sum.inr (s, some nextNd)
            else Sum.inr (st2, (none : Option Node)))
          with
          | Sum.inl r => r
          | Sum.inr (st3, nextInfo) =>
            match prevInfo with
            | some prevNd =>
              let (_, t1, s1) :=
                coalesce (coalesceOrRedistribute fuel) t st3 prevNd nd parent nodeIndex
              let s2 := (s1.unpin parentPid true).unpin prevNd.pageId true
              let s3 :=
                match nextInfo with
                | some nx => s2.unpin nx.pageId false
                | none => s2
              (true, t1, s3)
            | none =>
              match nextInfo with
              | some nextNd =>
                let (ret, t1, s1) :=
                  coalesce (coalesceOrRedistribute fuel) t st3 nd nextNd parent (nodeIndex + 1)
                let s2 := (s1.unpin parentPid true).unpin nextNd.pageId true
                let s3 := { s2 with deletedSet := s2.deletedSet ++ [nextNd.pageId] }
                let s4 := if ret then { s3 with deletedSet := s3.deletedSet ++ [parentPid] }
                          else s3
                (false, t1, s4)
              | none => (false, t, st3)

/-- `BPlusTree::Remove` (lines 214-238).  Empty tree: return.  Find the
leaf; when the key is absent (`KeyIndex` out of range or key mismatch)
return — without unpinning the leaf (lines 221-223).  Otherwise `RemoveAt`;
on underflow run `CoalesceOrRedistribute`; finally unpin the leaf dirty and,
when the node was slated for deletion, `DeletePage` it. -/
def BPlusTree.remove (t : BPlusTree) (st : TState) (k : Int) (fuel : Nat) :
    BPlusTree × TState :=
  if t.rootPageId = INVALID_PAGE_ID then (t, st)
  else
    match t.findLeafPage st k false fuel with
    | (none, st1) => (t, st1)
    | (some (pid, leaf), st1) =>
      if leaf.items.length ≤ leaf.keyIndex k ∨ ¬ leaf.keyAt (leaf.keyIndex k) = k then
        (t, st1)
      else
        let leaf1 := leaf.removeAt (leaf.keyIndex k)
        let st2 := st1.setNode pid (Node.leaf leaf1)
        let (ret, t1, st3) :=
          if leaf1.items.length < leaf1.minSize then
            coalesceOrRedistribute fuel t st2 (Node.leaf leaf1)
          else (false, t, st2)
        if ret = false then (t1, st3.unpin pid true)
        else
          let st4 := st3.unpin pid true
          let (_, st5) := st4.deletePage pid
          (t1, st5)

/-- `BPlusTree::GetValue` (lines 46-60): empty tree gives `false`; otherwise
look the key up in the leaf, unpin it clean, and report the hit. -/
def BPlusTree.getValue (t : BPlusTree) (st : TState) (k : Int) (fuel : Nat) :
    Bool × Option Int × TState :=
  if t.rootPageId = INVALID_PAGE_ID then (false, none, st)
  else
    match t.findLeafPage st k false fuel with
    | (none, st1) => (false, none, st1)
    | (some (pid, leaf), st1) =>
      let res := leaf.lookup k
      let st2 := st1.unpin pid false
      match res with
      | some v => (true, some v, st2)
      | none => (false, none, st2)

/-- The fields of `IndexIterator` (index_iterator.h): the current page id,
the slot index, and the leaf the page pointer are cast to (`none` models the
null `leaf_ptr_` of the end iterator). -/
structure IndexIterator where
  pageId : Int
  index : Int
  leaf : Option LeafPage
deriving DecidableEq

/-- `IndexIterator::isEnd` (index_iterator.cpp line 40). -/
def IndexIterator.isEnd (it : IndexIterator) : Bool := it.pageId = INVALID_PAGE_ID

/-- `IndexIterator::operator++` (index_iterator.cpp lines 49-73).  At the
end iterator it returns itself untouched before reading `leaf_ptr_`.
Otherwise, past the last slot it steps to the sibling leaf: record the old
page id, read `next_page_id`; when invalid, become the end iterator; else
fetch the next leaf (`Except.error` models the thrown out-of-memory
exception on a null fetch, and the dereference of a null `leaf_ptr_`);
unpin the old leaf clean and reset the index. -/
def IndexIterator.inc (it : IndexIterator) (st : TState) :
    Except Unit (IndexIterator × TState) :=
  if it.pageId = INVALID_PAGE_ID then Except.ok (it, st)
  else
    match it.leaf with
    | none => Except.error ()
    | some l =>
      if it.index ≥ (l.items.length : Int) - 1 then
        if l.nextPageId = INVALID_PAGE_ID then
          Except.ok ({ pageId := INVALID_PAGE_ID, index := 0, leaf := none },
                     st.unpin it.pageId false)
        else
          match st.fetch l.nextPageId with
          | (none, _) => Except.error ()
          | (some (Node.internal _), _) => Except.error ()
          | (some (Node.leaf l1), st1) =>
            Except.ok ({ pageId := l.nextPageId, index := 0, leaf := some l1 },
                       st1.unpin it.pageId false)
      else Except.ok ({ it with index := it.index + 1 }, st)

/-!
Concrete buffer-pool states used to evaluate the claims.  All use a pool of
one frame (frame 0), so that the free list is empty and frame 0 is the only
candidate; the disk initially stores image `0` for every page and will
allocate page 9 next.
-/

/-- Disk with all-zero images, allocation counter at 9, no deallocations. -/
def diskEx : DiskManager := { store := fun _ => 0, nextPageId := 9, deallocated := [] }

/-- Pool of one frame holding page 5 unpinned and clean; page table `5 ↦ 0`;
frame 0 sits in the replacer with timestamp 1. -/
def bpmUnpinned : BufferPoolManager :=
  { poolSize := 1,
    pages := fun _ => { pageId := 5, pinCount := 0, isDirty := false, data := 7 },
    pageTable := [(5, 0)],
    freeList := [],
    replacer := { size := 1, hashMap := [(0, 1)], timestamp := 2 },
    disk := diskEx,
    latch := 0 }

/-- Pool of one frame holding page 5 pinned once and dirty; the replacer is
empty (the frame is pinned); page table `5 ↦ 0`. -/
def bpmPinnedDirty : BufferPoolManager :=
  { poolSize := 1,
    pages := fun _ => { pageId := 5, pinCount := 1, isDirty := true, data := 7 },
    pageTable := [(5, 0)],
    freeList := [],
    replacer := { size := 1, hashMap := [], timestamp := 1 },
    disk := diskEx,
    latch := 0 }

/-- Pool of one frame holding page 5 unpinned and dirty; frame 0 in the
replacer; page table `5 ↦ 0`. -/
def bpmUnpinnedDirty : BufferPoolManager :=
  { poolSize := 1,
    pages := fun _ => { pageId := 5, pinCount := 0, isDirty := true, data := 7 },
    pageTable := [(5, 0)],
    freeList := [],
    replacer := { size := 1, hashMap := [(0, 1)], timestamp := 2 },
    disk := diskEx,
    latch := 0 }

/-- A non-empty replacer (frame 2, timestamp 1) with capacity 4, as handed an
out-parameter whose incoming garbage value is 5. -/
def replacerEx : LRUReplacer := { size := 4, hashMap := [(2, 1)], timestamp := 2 }

/-!
Concrete tree states: a tree whose root is a single leaf (page 1) holding
the key 10, over a page store with no pins outstanding.
-/

/-- A tree rooted at leaf page 1 with `leaf_max=4`, `internal_max=5`. -/
def treeOneLeaf : BPlusTree := { rootPageId := 1, leafMaxSize := 4, internalMaxSize := 5 }

/-- The root leaf: page 1, no parent, no sibling, holding `(10, 100)`. -/
def leafTen : LeafPage :=
  { pageId := 1, parentPageId := INVALID_PAGE_ID, nextPageId := INVALID_PAGE_ID,
    maxSize := 4, items := [(10, 100)] }

/-- Page store for `treeOneLeaf`: only page 1 is allocated, nothing is
pinned, page 2 is the next fresh id, the header records root 1. -/
def stOneLeaf : TState :=
  { nodes := [(1, Node.leaf leafTen)], pins := fun _ => 0, nextPageId := 2,
    headerRoot := 1, deletedSet := [], trace := [] }

/-- A second copy of the one-leaf tree for the duplicate-insert claim (page
3 holds `(10, 100)`), so the two claims share no definitions. -/
def treeOneLeafIns : BPlusTree := { rootPageId := 3, leafMaxSize := 4, internalMaxSize := 5 }

/-- The root leaf of `treeOneLeafIns`. -/
def leafTenIns : LeafPage :=
  { pageId := 3, parentPageId := INVALID_PAGE_ID, nextPageId := INVALID_PAGE_ID,
    maxSize := 4, items := [(10, 100)] }

/-- Page store for `treeOneLeafIns`. -/
def stOneLeafIns : TState :=
  { nodes := [(3, Node.leaf leafTenIns)], pins := fun _ => 0, nextPageId := 4,
    headerRoot := 3, deletedSet := [], trace := [] }

/-- The end iterator: invalid page id, null leaf pointer. -/
def endIter : IndexIterator := { pageId := INVALID_PAGE_ID, index := 0, leaf := none }

/-- An empty page store for the iterator claim. -/
def stEmpty : TState :=
  { nodes := [], pins := fun _ => 0, nextPageId := 1, headerRoot := INVALID_PAGE_ID,
    deletedSet := [], trace := [] }

/-!
Claim theorems for the buffer pool manager (C1-C6) and the replacer (C9).
-/

/-- C1: the claim states that `fetch` of a resident page increments the pin
count AND removes the frame from the replacer.  Evaluating
`FetchPageImpl` on a state where page 5 is resident in frame 0 with pin
count 0 (hence in the replacer): the pin count becomes 1 but the replacer
still contains frame 0, so a frame with non-zero pin count remains an
eviction candidate and the claimed replacer-membership invariant is broken —
the source (lines 48-53) never calls `replacer_->Pin`. -/
theorem c1_fetch_resident_leaves_frame_in_replacer :
    (bpmUnpinned.fetchPageImpl 5 0).1 = some 0 ∧
    ((bpmUnpinned.fetchPageImpl 5 0).2.pages 0).pinCount = 1 ∧
    (bpmUnpinned.fetchPageImpl 5 0).2.replacer.hashMap = [(0, 1)] := by
  decide

/-- C2: the claim states that a `fetch` that evicts victim page `q` erases
`q`'s page-table entry before installing the new mapping.  Evaluating
`FetchPageImpl 7` on a state where the victim frame 0 holds page 5: line 71
erases the page table with the frame id (0) instead of the victim's page id
(5), so the stale entry `5 ↦ 0` survives next to the new entry `7 ↦ 0` —
two page-table entries name frame 0, and entry `5 ↦ 0` names a frame that
now holds page 7. -/
theorem c2_fetch_evict_leaves_stale_page_table_entry :
    (bpmUnpinned.fetchPageImpl 7 0).2.pageTable = [(5, 0), (7, 0)] ∧
    ((bpmUnpinned.fetchPageImpl 7 0).2.pages 0).pageId = 7 := by
  decide

/-- C3: the claim states that `unpin(p, d)` ORs the dirty flag with `d`, so
that `unpin(p, false)` never clears a set flag.  Evaluating `UnpinPageImpl 5
false` on a state where page 5 is resident, pinned once and dirty: line 93
assigns `is_dirty_ = is_dirty`, and the previously-set dirty flag is
cleared. -/
theorem c3_unpin_false_clears_dirty :
    (bpmPinnedDirty.unpinPageImpl 5 false).1 = true ∧
    ((bpmPinnedDirty.unpinPageImpl 5 false).2.pages 0).isDirty = false := by
  decide

/-- C4: the claim states that `flush(p)` leaves the frame resident — page
table, pin count, free list and replacer membership unchanged.  Evaluating
`FlushPageImpl 5` on a state where page 5 is resident, dirty and pinned
once: the implementation (lines 120-122) erases the page-table entry and
pushes frame 0 onto the free list even though its pin count is still 1 —
flush behaves like an eviction. -/
theorem c4_flush_evicts_resident_frame :
    (bpmPinnedDirty.flushPageImpl 5).1 = true ∧
    (bpmPinnedDirty.flushPageImpl 5).2.pageTable = [] ∧
    (bpmPinnedDirty.flushPageImpl 5).2.freeList = [0] ∧
    ((bpmPinnedDirty.flushPageImpl 5).2.pages 0).pinCount = 1 := by
  decide

/-- C5: the claim states that a successful `new_page` returns a zeroed
buffer with pin 1 and a FALSE dirty flag, including when the frame came from
evicting a dirty victim.  Evaluating `NewPageImpl` on a state whose only
frame holds dirty victim page 5: the victim image is written back and the
buffer zeroed with pin 1 (new page id 9), but `is_dirty_` is never reset
(lines 158-166), so the fresh page starts out marked dirty. -/
theorem c5_new_page_keeps_victim_dirty_flag :
    (bpmUnpinnedDirty.newPageImpl 0).1 = some 9 ∧
    ((bpmUnpinnedDirty.newPageImpl 0).2.pages 0).data = 0 ∧
    ((bpmUnpinnedDirty.newPageImpl 0).2.pages 0).pinCount = 1 ∧
    ((bpmUnpinnedDirty.newPageImpl 0).2.disk.store 5) = 7 ∧
    ((bpmUnpinnedDirty.newPageImpl 0).2.pages 0).isDirty = true := by
  decide

/-- C6: the claim states that `delete_page(p)` on a resident page with
positive pin count returns `false` leaving all state unchanged.  Evaluating
`DeletePageImpl 5` on a state where page 5 is pinned: the source (line 184)
executes `latch_.lock()` a second time instead of unlocking, so the
operation ends with the mutex at lock depth 2 and never released — on a real
`std::mutex` this is a self-deadlock, not a clean `false` return. -/
theorem c6_delete_pinned_double_locks_latch :
    (bpmPinnedDirty.deletePageImpl 5).1 = false ∧
    (bpmPinnedDirty.deletePageImpl 5).2.latch = 2 := by
  decide

/-- C9: the claim states that `victim()` returns none iff the replacer is
empty.  The submission version (`project0_submissiom/src/buffer/
lru_replacer.cpp` lines 22-24) first tests the uninitialized out-parameter
against `size`: evaluating it on a non-empty replacer (frame 2 present) with
incoming garbage value 5 > size = 4 yields `false` — no victim although the
replacer is non-empty.  (The `src/src` version has no such check; see
`victim_none_iff_empty` and `victim_picks_min_timestamp` below.) -/
theorem c9_victim_nonempty_returns_none :
    (replacerEx.victimP0 5).1 = false ∧ replacerEx.hashMap ≠ [] := by
  decide

/-!
Supporting lemmas about the `src/src` replacer, referenced from the C9
analysis: that version's `Victim` does return none exactly on the empty map,
returns an entry of minimal timestamp, and erases it.
-/

/-- The victim scan never leaves the candidate set. -/
theorem scanMin_mem (l : List (Int × Int)) : ∀ best : Int × Int, scanMin best l ∈ best :: l := by
  induction l with
  | nil => intro best; simp [scanMin]
  | cons e rest ih =>
    intro best
    rw [scanMin]
    rcases List.mem_cons.1 (ih (if e.2 < best.2 then e else best)) with h1 | h1
    · rw [h1]
      by_cases hc : e.2 < best.2
      · rw [if_pos hc]
        exact List.mem_cons.2 (Or.inr (List.mem_cons_self e rest))
      · rw [if_neg hc]
        exact List.mem_cons_self best (e :: rest)
    · exact List.mem_cons.2 (Or.inr (List.mem_cons.2 (Or.inr h1)))

/-- The victim scan returns an entry of minimal timestamp. -/
theorem scanMin_le (l : List (Int × Int)) :
    ∀ best x, x ∈ best :: l → (scanMin best l).2 ≤ x.2 := by
  induction l with
  | nil =>
    intro best x hx
    rw [List.mem_singleton] at hx
    subst hx
    simp [scanMin]
  | cons e rest ih =>
    intro best x hx
    rw [scanMin]
    have hb : (scanMin (if e.2 < best.2 then e else best) rest).2 ≤
        (if e.2 < best.2 then e else best).2 :=
      ih _ _ (List.mem_cons_self _ _)
    rcases List.mem_cons.1 hx with h1 | h1
    · refine le_trans hb ?_
      subst h1
      by_cases hc : e.2 < x.2
      · rw [if_pos hc]; exact le_of_lt hc
      · rw [if_neg hc]
    · rcases List.mem_cons.1 h1 with h2 | h2
      · refine le_trans hb ?_
        subst h2
        by_cases hc : x.2 < best.2
        · rw [if_pos hc]
        · rw [if_neg hc]; exact le_of_not_lt hc
      · exact ih _ _ (List.mem_cons.2 (Or.inr h2))

/-- The `src/src` `Victim` returns none exactly on an empty replacer. -/
theorem victim_none_iff_empty (r : LRUReplacer) : (r.victim).1 = none ↔ r.hashMap = [] := by
  cases h : r.hashMap with
  | nil => simp [LRUReplacer.victim, h]
  | cons e rest => simp [LRUReplacer.victim, h]

/-- The `src/src` `Victim` on a non-empty replacer returns the frame of a
minimal-timestamp entry and erases that frame from the map. -/
theorem victim_picks_min_timestamp (r : LRUReplacer) (e : Int × Int)
    (rest : List (Int × Int)) (h : r.hashMap = e :: rest) :
    ∃ m, m ∈ r.hashMap ∧ (r.victim).1 = some m.1 ∧
      (∀ x, x ∈ r.hashMap → m.2 ≤ x.2) ∧
      (r.victim).2.hashMap = eraseKey r.hashMap m.1 := by
  refine ⟨scanMin e rest, ?_, ?_, ?_, ?_⟩
  · rw [h]; exact scanMin_mem rest e
  · simp [LRUReplacer.victim, h]
  · intro x hx; rw [h] at hx; exact scanMin_le rest e x hx
  · simp [LRUReplacer.victim, LRUReplacer.pin, h]

/-!
Claim theorems for the B+ tree (C7, C8) and the iterator (C10).
-/

/-- C7: the claim states that `Remove` of an absent key on a non-empty tree
unpins the leaf fetched by `FindLeaf`, leaving every pin count as it was.
Evaluating `Remove(5)` on a tree whose single leaf (page 1) holds only key
10: the not-found branch (b_plus_tree.cpp lines 221-223) returns without
`UnpinPage`, so the leaf's pin count ends one higher than before the call
and the trace shows a fetch with no matching unpin. -/
theorem c7_remove_absent_key_leaks_pin :
    (treeOneLeaf.remove stOneLeaf 5 8).2.pins 1 = stOneLeaf.pins 1 + 1 ∧
    (treeOneLeaf.remove stOneLeaf 5 8).2.trace = [BCall.fetch 1] := by
  decide

/-- Reading a pin map through `bump`. -/
theorem bump_add (p : Int → Int) (pid d q : Int) :
    bump p pid d q = p q + (if q = pid then d else 0) := by
  by_cases h : q = pid <;> simp [bump, h]

/-- The descent loop of `FindLeafPage` only pins: when it returns a leaf,
the node store, allocation counter, header record and deleted set are
untouched and exactly the returned leaf holds one extra pin. -/
theorem findLeafLoop_state (k : Int) (lm : Bool) :
    ∀ (fuel : Nat) (st : TState) (pid pid' : Int) (leaf : LeafPage) (st1 : TState),
      findLeafLoop k lm fuel st pid = (some (pid', leaf), st1) →
      st1.nodes = st.nodes ∧ st1.nextPageId = st.nextPageId ∧
      st1.headerRoot = st.headerRoot ∧ st1.deletedSet = st.deletedSet ∧
      ∀ q, st1.pins q = st.pins q + (if q = pid' then 1 else 0) := by
  intro fuel
  induction fuel with
  | zero =>
    intro st pid pid' leaf st1 h
    simp [findLeafLoop] at h
  | succ f ih =>
    intro st pid pid' leaf st1 h
    rw [findLeafLoop] at h
    cases hn : lookupNode st.nodes pid with
    | none =>
      simp [TState.fetch, hn] at h
    | some nd =>
      cases nd with
      | leaf l =>
        simp [TState.fetch, hn] at h
        obtain ⟨⟨hpid, hleaf⟩, hst⟩ := h
        subst hpid
        subst hst
        refine ⟨rfl, rfl, rfl, rfl, ?_⟩
        intro q
        exact bump_add st.pins _ 1 q
      | internal n =>
        simp [TState.fetch, hn] at h
        obtain ⟨h1, h2, h3, h4, h5⟩ := ih _ _ _ _ _ h
        refine ⟨h1, h2, h3, h4, ?_⟩
        intro q
        have h5q := h5 q
        rw [h5q]
        show bump (bump st.pins pid 1) pid (-1) q + (if q = pid' then 1 else 0) =
          st.pins q + (if q = pid' then 1 else 0)
        rw [bump_add, bump_add]
        by_cases hq : q = pid <;> by_cases hq2 : q = pid' <;> simp [hq, hq2] <;> omega

/-- C8: the claim states that inserting an already-present key returns
`false` and leaves the tree unchanged.  Hypotheses: the tree is non-empty,
`FindLeafPage` reaches a leaf, and that leaf already holds the key at its
`KeyIndex` position (which is how a well-formed tree presents a present
key).  Then `Insert` returns `false`, the tree object, every node image,
every pin count, the allocation counter and the header record are unchanged,
and the only buffer-pool call after the descent is the clean unpin of the
fetched leaf (b_plus_tree.cpp lines 117-121). -/
theorem c8_duplicate_insert_returns_false_tree_unchanged
    (t : BPlusTree) (st : TState) (k v : Int) (fuel : Nat) (pid : Int) (leaf : LeafPage)
    (hroot : ¬ t.rootPageId = INVALID_PAGE_ID)
    (hfind : (t.findLeafPage st k false fuel).1 = some (pid, leaf))
    (hlt : leaf.keyIndex k < leaf.items.length)
    (hkey : leaf.keyAt (leaf.keyIndex k) = k) :
    (t.insert st k v fuel).1 = false ∧
    (t.insert st k v fuel).2.1 = t ∧
    (t.insert st k v fuel).2.2.nodes = st.nodes ∧
    (t.insert st k v fuel).2.2.pins = st.pins ∧
    (t.insert st k v fuel).2.2.nextPageId = st.nextPageId ∧
    (t.insert st k v fuel).2.2.headerRoot = st.headerRoot ∧
    (t.insert st k v fuel).2.2.trace =
      (t.findLeafPage st k false fuel).2.trace ++ [BCall.unpin pid false] := by
  set stF := (t.findLeafPage st k false fuel).2 with hstF
  have hE : t.findLeafPage st k false fuel = (some (pid, leaf), stF) := by
    rw [← hfind]
  have hloop : findLeafLoop k false fuel st t.rootPageId = (some (pid, leaf), stF) := by
    rw [← hE, BPlusTree.findLeafPage, if_neg hroot]
  obtain ⟨hn, hnp, hh, hd, hp⟩ :=
    findLeafLoop_state k false fuel st t.rootPageId pid leaf stF hloop
  have hins : t.insert st k v fuel = (false, t, stF.unpin pid false) := by
    rw [BPlusTree.insert, if_neg hroot, BPlusTree.insertIntoLeaf, hE]
    simp [hlt, hkey]
  rw [hins]
  refine ⟨rfl, rfl, hn, ?_, hnp, hh, rfl⟩
  funext q
  show bump stF.pins pid (-1) q = st.pins q
  rw [bump_add, hp q]
  by_cases hq : q = pid <;> simp [hq]

/-- C8 witness: the duplicate-insert theorem applied to the concrete
one-leaf tree holding key 10, inserting key 10 again. -/
theorem c8_duplicate_insert_witness :
    (¬ treeOneLeafIns.rootPageId = INVALID_PAGE_ID) ∧
    (treeOneLeafIns.findLeafPage stOneLeafIns 10 false 3).1 = some (3, leafTenIns) ∧
    leafTenIns.keyIndex 10 < leafTenIns.items.length ∧
    leafTenIns.keyAt (leafTenIns.keyIndex 10) = 10 ∧
    ((treeOneLeafIns.insert stOneLeafIns 10 999 3).1 = false ∧
     (treeOneLeafIns.insert stOneLeafIns 10 999 3).2.1 = treeOneLeafIns ∧
     (treeOneLeafIns.insert stOneLeafIns 10 999 3).2.2.nodes = stOneLeafIns.nodes ∧
     (treeOneLeafIns.insert stOneLeafIns 10 999 3).2.2.pins = stOneLeafIns.pins ∧
     (treeOneLeafIns.insert stOneLeafIns 10 999 3).2.2.nextPageId = stOneLeafIns.nextPageId ∧
     (treeOneLeafIns.insert stOneLeafIns 10 999 3).2.2.headerRoot = stOneLeafIns.headerRoot ∧
     (treeOneLeafIns.insert stOneLeafIns 10 999 3).2.2.trace =
       (treeOneLeafIns.findLeafPage stOneLeafIns 10 false 3).2.trace ++
         [BCall.unpin 3 false]) :=
  ⟨by decide, by decide, by decide, by decide,
   c8_duplicate_insert_returns_false_tree_unchanged treeOneLeafIns stOneLeafIns 10 999 3 3
     leafTenIns (by decide) (by decide) (by decide) (by decide)⟩

/-- C10: advancing an iterator already at the end state (invalid page id) is
a no-op — the same end iterator is returned, the page store (pins, nodes,
call trace) is untouched, and the null leaf pointer is never read
(index_iterator.cpp lines 50-52 return before any access). -/
theorem c10_advance_end_iterator_noop (it : IndexIterator) (st : TState)
    (h : it.pageId = INVALID_PAGE_ID) :
    it.inc st = Except.ok (it, st) := by
  unfold IndexIterator.inc
  rw [if_pos h]

/-- C10 witness: the end-iterator theorem applied to the canonical end
iterator over the empty page store. -/
theorem c10_advance_end_iterator_witness :
    endIter.pageId = INVALID_PAGE_ID ∧ endIter.inc stEmpty = Except.ok (endIter, stEmpty) :=
  ⟨rfl, c10_advance_end_iterator_noop endIter stEmpty rfl⟩

end bustub
